import Mathlib

/-!
Verification development for the Higgsfield UTM Link Builder bot
(`src/utm_bot.py`).  The Python source is shallowly embedded: pure helper
functions become Lean functions over `List Char` / `String`, the
conversation state machine becomes an explicit step function over a step
enum and an answer record, and the wall-clock time consumed by the
identifier generator becomes an explicit `Nat` parameter.
-/

namespace UtmBot

/-! ## Character predicates (Python `str.strip`, `str.lower`, slug class) -/

/-- ASCII whitespace stripped by Python `str.strip()` (space, tab, newline,
carriage return, vertical tab, form feed). -/
def isPySpace (c : Char) : Bool :=
  c = ' ' || c = '\t' || c = '\n' || c = '\r' || c = Char.ofNat 11 || c = Char.ofNat 12

/-- ASCII lowering, the effect of Python `str.lower()` on ASCII text. -/
def toLowerPy (c : Char) : Char :=
  if 65 ≤ c.toNat ∧ c.toNat ≤ 90 then Char.ofNat (c.toNat + 32) else c

/-- Characters kept by `re.sub(r"[^a-z0-9_]", "", ...)` in `sanitize`. -/
def isSlugChar (c : Char) : Bool :=
  (97 ≤ c.toNat && c.toNat ≤ 122) || (48 ≤ c.toNat && c.toNat ≤ 57) || c = '_'

/-- ASCII letters and digits (either case). -/
def isAsciiAlphaNum (c : Char) : Bool :=
  (65 ≤ c.toNat && c.toNat ≤ 90) || (97 ≤ c.toNat && c.toNat ≤ 122) ||
    (48 ≤ c.toNat && c.toNat ≤ 57)

/-- Result: `l` with leading and trailing characters satisfying `p` removed,
Python `str.strip` on a character list. -/
def stripList (p : Char → Bool) (l : List Char) : List Char :=
  ((l.dropWhile p).reverse.dropWhile p).reverse

/-- Python `str.strip()` (whitespace variant) on a `String`. -/
def pyStrip (s : String) : String :=
  ⟨stripList isPySpace s.data⟩

/-! ## `sanitize` (src/utm_bot.py lines 97-102) -/

/-- One pass of `re.sub(r"_+", "_", ...)`: collapse each maximal run of
underscores to a single underscore.  The boolean records whether the
previous emitted character was an underscore of a still-open run. -/
def collapseUnderscores : Bool → List Char → List Char
  | _, [] => []
  | prev, c :: rest =>
    if c = '_' then
      if prev then collapseUnderscores true rest
      else '_' :: collapseUnderscores true rest
    else c :: collapseUnderscores false rest

/-- Function `sanitize` from the source: lowercase, strip, map `-` and ` ` to `_`,
drop characters outside `[a-z0-9_]`, collapse repeated underscores, strip
leading/trailing underscores. -/
def sanitize (s : String) : String :=
  let l := s.data.map toLowerPy
  let l := stripList isPySpace l
  let l := l.map (fun c => if c = '-' then '_' else c)
  let l := l.map (fun c => if c = ' ' then '_' else c)
  let l := l.filter isSlugChar
  let l := collapseUnderscores false l
  ⟨stripList (fun c => c = '_') l⟩

/-! ## `extract_yt_handle` (src/utm_bot.py lines 105-118)

Each of the four URL patterns has the shape
`(?:https?://)?(?:www\.)?youtube\.com/MARKER([CLASS]+)`.
Both prefix groups are optional, so `re.search` succeeds on a string iff
the literal marker occurs somewhere followed by at least one character of
the capture class, and the leftmost such match captures the maximal class
run after the first such marker occurrence (the optional prefixes consist
of characters that can never overlap the marker text, so they never move
the captured occurrence). `searchCapture` embeds exactly that. -/

/-- Characters of the capture class `[a-zA-Z0-9_\-\.]` (patterns 1, 2, 4). -/
def isHandleChar (c : Char) : Bool :=
  isAsciiAlphaNum c || c = '_' || c = '-' || c = '.'

/-- Characters of the capture class `[a-zA-Z0-9_\-]` (pattern 3). -/
def isChannelChar (c : Char) : Bool :=
  isAsciiAlphaNum c || c = '_' || c = '-'

/-- Leftmost occurrence of `marker` that is followed by a nonempty run of
`cls` characters; returns that maximal run. -/
def searchCapture (marker : List Char) (cls : Char → Bool) :
    List Char → Option (List Char)
  | [] => none
  | c :: rest =>
    if marker.isPrefixOf (c :: rest) then
      let cap := ((c :: rest).drop marker.length).takeWhile cls
      if cap.isEmpty then searchCapture marker cls rest else some cap
    else searchCapture marker cls rest

/-- Function `extract_yt_handle` from the source: strip (`raw = raw.strip()` is
inlined as `pyStrip s`), try the four URL patterns in order, else treat a
leading `@` as a handle sigil, else sanitize the whole input. -/
def extract_yt_handle (s : String) : String :=
  match searchCapture "youtube.com/@".data isHandleChar (pyStrip s).data with
  | some cap => sanitize ⟨cap⟩
  | none =>
  match searchCapture "youtube.com/c/".data isHandleChar (pyStrip s).data with
  | some cap => sanitize ⟨cap⟩
  | none =>
  match searchCapture "youtube.com/channel/".data isChannelChar (pyStrip s).data with
  | some cap => sanitize ⟨cap⟩
  | none =>
  match searchCapture "youtube.com/user/".data isHandleChar (pyStrip s).data with
  | some cap => sanitize ⟨cap⟩
  | none =>
  if (pyStrip s).data.head? = some '@' then sanitize ⟨(pyStrip s).data.tail⟩
  else sanitize (pyStrip s)

/-! ## `generate_id` (src/utm_bot.py lines 132-135)

`generate_id` hashes `f"{handle}_{campaign}_{content_type}_{time.time_ns()}"`
with SHA-256 and keeps the first 5 hex characters.  The nondeterministic
`time.time_ns()` value becomes an explicit `Nat` parameter `t`; SHA-256 is
embedded over `Nat` with explicit reduction modulo `2 ^ 32`. -/

/-- Reduce to a 32-bit word. -/
def w32 (n : Nat) : Nat := n % 4294967296

/-- Right rotation of a 32-bit word by `k` places. -/
def rotr (x k : Nat) : Nat := (x >>> k) + ((x % 2 ^ k) <<< (32 - k))

/-- The SHA-256 round constants. -/
def shaK : List Nat :=
  [1116352408, 1899447441, 3049323471, 3921009573, 961987163,
   1508970993, 2453635748, 2870763221, 3624381080, 310598401,
   607225278, 1426881987, 1925078388, 2162078206, 2614888103,
   3248222580, 3835390401, 4022224774, 264347078, 604807628,
   770255983, 1249150122, 1555081692, 1996064986, 2554220882,
   2821834349, 2952996808, 3210313671, 3336571891, 3584528711,
   113926993, 338241895, 666307205, 773529912, 1294757372,
   1396182291, 1695183700, 1986661051, 2177026350, 2456956037,
   2730485921, 2820302411, 3259730800, 3345764771, 3516065817,
   3600352804, 4094571909, 275423344, 430227734, 506948616,
   659060556, 883997877, 958139571, 1322822218, 1537002063,
   1747873779, 1955562222, 2024104815, 2227730452, 2361852424,
   2428436474, 2756734187, 3204031479, 3329325298]

/-- The eight SHA-256 working variables. -/
structure Hash8 where
  a : Nat
  b : Nat
  c : Nat
  d : Nat
  e : Nat
  f : Nat
  g : Nat
  h : Nat

/-- Initial SHA-256 hash state. -/
def shaH0 : Hash8 :=
  ⟨1779033703, 3144134277, 1013904242, 2773480762,
   1359893119, 2600822924, 528734635, 1541459225⟩

/-- Word `i` of a schedule list (0 when out of range). -/
def nthWord (l : List Nat) (i : Nat) : Nat := (l.drop i).headD 0

/-- Append the next message-schedule word. -/
def schedStep (w : List Nat) : List Nat :=
  let n := w.length
  let w15 := nthWord w (n - 15)
  let w2  := nthWord w (n - 2)
  let s0 := (rotr w15 7) ^^^ (rotr w15 18) ^^^ (w15 >>> 3)
  let s1 := (rotr w2 17) ^^^ (rotr w2 19) ^^^ (w2 >>> 10)
  w ++ [w32 (nthWord w (n - 16) + s0 + nthWord w (n - 7) + s1)]

/-- Extend a 16-word block by `n` schedule words. -/
def buildSchedule : Nat → List Nat → List Nat
  | 0, w => w
  | n + 1, w => buildSchedule n (schedStep w)

/-- One SHA-256 compression round with round constant `k` and schedule word `w`. -/
def compressRound (st : Hash8) (k w : Nat) : Hash8 :=
  let s1 := (rotr st.e 6) ^^^ (rotr st.e 11) ^^^ (rotr st.e 25)
  let ch := (st.e &&& st.f) ^^^ ((st.e ^^^ 4294967295) &&& st.g)
  let t1 := w32 (st.h + s1 + ch + k + w)
  let s0 := (rotr st.a 2) ^^^ (rotr st.a 13) ^^^ (rotr st.a 22)
  let maj := (st.a &&& st.b) ^^^ (st.a &&& st.c) ^^^ (st.b &&& st.c)
  let t2 := w32 (s0 + maj)
  ⟨w32 (t1 + t2), st.a, st.b, st.c, w32 (st.d + t1), st.e, st.f, st.g⟩

/-- Big-endian packing of bytes into 32-bit words. -/
def bytesToWords : List Nat → List Nat
  | b0 :: b1 :: b2 :: b3 :: rest =>
    (((b0 * 256 + b1) * 256 + b2) * 256 + b3) :: bytesToWords rest
  | _ => []

/-- Process one 64-byte block. -/
def processBlock (h : Hash8) (block : List Nat) : Hash8 :=
  let w := buildSchedule 48 (bytesToWords block)
  let st := (shaK.zip w).foldl (fun st p => compressRound st p.1 p.2) h
  ⟨w32 (h.a + st.a), w32 (h.b + st.b), w32 (h.c + st.c), w32 (h.d + st.d),
   w32 (h.e + st.e), w32 (h.f + st.f), w32 (h.g + st.g), w32 (h.h + st.h)⟩

/-- The message length in bits as 8 big-endian bytes. -/
def lenBytes (n : Nat) : List Nat :=
  [(n >>> 56) &&& 255, (n >>> 48) &&& 255, (n >>> 40) &&& 255, (n >>> 32) &&& 255,
   (n >>> 24) &&& 255, (n >>> 16) &&& 255, (n >>> 8) &&& 255, n &&& 255]

/-- SHA-256 padding: a `0x80` byte, zeros to 56 mod 64, then the bit length. -/
def shaPad (m : List Nat) : List Nat :=
  m ++ [128] ++ List.replicate ((119 - m.length % 64) % 64) 0 ++ lenBytes (8 * m.length)

/-- Split a padded message into `n` blocks of 64 bytes. -/
def splitBlocks : Nat → List Nat → List (List Nat)
  | 0, _ => []
  | n + 1, l => l.take 64 :: splitBlocks n (l.drop 64)

/-- Lowercase hex digit. -/
def hexDigit (n : Nat) : Char := Char.ofNat (if n < 10 then 48 + n else 87 + n)

/-- A 32-bit word as 8 hex characters. -/
def wordHex (n : Nat) : List Char :=
  [hexDigit ((n >>> 28) &&& 15), hexDigit ((n >>> 24) &&& 15),
   hexDigit ((n >>> 20) &&& 15), hexDigit ((n >>> 16) &&& 15),
   hexDigit ((n >>> 12) &&& 15), hexDigit ((n >>> 8) &&& 15),
   hexDigit ((n >>> 4) &&& 15), hexDigit (n &&& 15)]

/-- Python `hashlib.sha256(bytes).hexdigest()`. -/
def sha256hex (msg : List Nat) : String :=
  let p := shaPad msg
  let d := (splitBlocks (p.length / 64) p).foldl processBlock shaH0
  ⟨wordHex d.a ++ wordHex d.b ++ wordHex d.c ++ wordHex d.d ++
   wordHex d.e ++ wordHex d.f ++ wordHex d.g ++ wordHex d.h⟩

/-- UTF-8 bytes of an ASCII string (code points, valid for every string the
bot feeds to the hash). -/
def strBytes (s : String) : List Nat := s.data.map Char.toNat

/-- Function `generate_id` from the source, with `time.time_ns()` made an explicit
parameter `t`. -/
def generate_id (handle campaign content_type : String) (t : Nat) : String :=
  (sha256hex (strBytes
    (handle ++ "_" ++ campaign ++ "_" ++ content_type ++ "_" ++ toString t))).take 5

/-! ## Session data (`context.user_data`) and registries -/

/-- The fields the handlers store in `context.user_data`.  A field absent
from the Python dict is `none`; `bulk_handles` defaults to the empty list
(the handlers read it with `data.get("bulk_handles", [])`). -/
structure Answers where
  page : Option String := none
  channel_type : Option String := none
  earn_visibility : Option String := none
  handle_mode : Option String := none
  handle : Option String := none
  bulk_handles : List String := []
  campaign_slug : Option String := none
  campaign_label : Option String := none
  content_type : Option String := none
  uid : Option String := none
deriving DecidableEq

/-- A `CAMPAIGNS` registry entry. -/
structure Campaign where
  key : String
  label : String
  slug : String
deriving DecidableEq

/-- The `CAMPAIGNS` table (src/utm_bot.py lines 72-78), in source order. -/
def CAMPAIGNS : List Campaign :=
  [⟨"cinema_studio", "🎥 Cinema Studio", "cinema_studio"⟩,
   ⟨"soul_2", "🖼 Soul 2.0", "soul_2"⟩,
   ⟨"kling_3", "🎬 Kling 3.0", "kling_3"⟩,
   ⟨"seedance_2", "🌱 Seedance 2.0", "seedance_2"⟩,
   ⟨"general", "🌐 General", "general"⟩]

/-- The `CONTENT_TYPES` table (src/utm_bot.py lines 80-84). -/
def CONTENT_TYPES : List (String × String) :=
  [("dedicated", "de"), ("integrated", "in"), ("shorts", "sh")]

/-! ## URL builder (src/utm_bot.py lines 121-190) -/

/-- Function `build_source` from the source. -/
def build_source (d : Answers) : String :=
  let channel_type := d.channel_type.getD ""
  if channel_type = "earn" then "youtube_e_" ++ d.earn_visibility.getD "pu"
  else if channel_type = "main" then "youtube_m"
  else "youtube_s"

/-- Function `build_utm_url` from the source, with the `time.time_ns()` read inside
`generate_id` made the explicit parameter `t`.  The source indexes
`data["campaign_slug"]` directly (a `KeyError` when absent), embedded as
`none`; every other field is read with a `.get` default.  Note that the
source calls `generate_id` on every invocation — it never reads
`data["uid"]`. -/
def build_utm_url (d : Answers) (t : Nat) (handle_override : Option String) :
    Option String :=
  match d.campaign_slug with
  | none => none
  | some campaign =>
    let medium := match handle_override with
      | some h => if h = "" then d.handle.getD "" else h
      | none => d.handle.getD ""
    let content_type := d.content_type.getD ""
    let uid := generate_id medium campaign content_type t
    some ("https://higgsfield.ai" ++ d.page.getD "" ++
      "?utm_source=" ++ build_source d ++
      "&utm_medium=" ++ medium ++
      "&utm_campaign=" ++ campaign ++
      "&utm_content=" ++ content_type ++ "_" ++ uid)

/-- Function `build_summary` from the source: this is the only consumer of the
precomputed `answers.uid`. -/
def build_summary (d : Answers) : String :=
  "📋 *UTM Link Summary*\n" ++
  "\n🌐 *Source:* `" ++ build_source d ++ "`" ++
  "\n📡 *Medium:* `" ++ d.handle.getD "—" ++ "`" ++
  "\n🎯 *Campaign:* `" ++ d.campaign_slug.getD "—" ++ "`" ++
  "\n📝 *Content:* `" ++ d.content_type.getD "—" ++ "_" ++ d.uid.getD "—" ++ "`"

/-! ## Bulk input parsing (src/utm_bot.py lines 551-583) -/

/-- A character at which Python `str.splitlines()` breaks. -/
def isLineBreak (c : Char) : Bool :=
  c = '\n' || c = '\r' || c = Char.ofNat 11 || c = Char.ofNat 12 ||
  c = Char.ofNat 28 || c = Char.ofNat 29 || c = Char.ofNat 30 ||
  c = Char.ofNat 133 || c = Char.ofNat 0x2028 || c = Char.ofNat 0x2029

/-- Python `str.splitlines()`: `\r\n` is a single break (the boolean flag
records that the previous character was a bare `\r`, so a following `\n`
is swallowed) and a trailing break produces no empty final line. -/
def splitlinesAux : Bool → List Char → List Char → List String
  | _, acc, [] => if acc.isEmpty then [] else [⟨acc.reverse⟩]
  | prevCR, acc, c :: rest =>
    if c = '\n' && prevCR then splitlinesAux false acc rest
    else if c = '\r' then (⟨acc.reverse⟩ : String) :: splitlinesAux true [] rest
    else if isLineBreak c then (⟨acc.reverse⟩ : String) :: splitlinesAux false [] rest
    else splitlinesAux false (c :: acc) rest

/-- Python `str.splitlines()` on a `String`. -/
def splitlines (s : String) : List String := splitlinesAux false [] s.data

/-- Comprehension `[l.strip() for l in raw.splitlines() if l.strip()]` from the source. -/
def bulkLines (raw : String) : List String :=
  ((splitlines raw).map pyStrip).filter (fun l => l ≠ "")

/-- The dedup loop of `bulk_handles_received`: keep the first occurrence
of each handle, in order (`seen` holds the handles already kept). -/
def dedupKeepFirst (seen : List String) : List String → List String
  | [] => []
  | h :: rest =>
    if h ∈ seen then dedupKeepFirst seen rest
    else h :: dedupKeepFirst (h :: seen) rest

/-- The parsing logic of `bulk_handles_received`: strip the message, split
into nonblank stripped lines, accept a line iff `extract_yt_handle` is
nonempty (else record the line as failed), and deduplicate the accepted
handles keeping first occurrences.  Returns `(accepted, failed)`. -/
def parseBulkInput (s : String) : List String × List String :=
  let raw := pyStrip s
  let lines := bulkLines raw
  let parsed := lines.filterMap
    (fun l => if extract_yt_handle l = "" then none else some (extract_yt_handle l))
  let failed := lines.filter (fun l => extract_yt_handle l = "")
  (dedupKeepFirst [] parsed, failed)

/-! ## Flow controller: the conversation state machine

States mirror the `range(10)` conversation constants, plus `ended` for
`ConversationHandler.END`.  One inbound transport event (a text message, a
callback token, `/start`, or `/cancel`) is one step; `t` is the
`time.time_ns()` value an event's handler would observe. -/

inductive Step where
  | inputPageUrl
  | selectChannelType
  | selectEarnVisibility
  | selectHandleMode
  | inputHandle
  | inputBulkHandles
  | selectCampaign
  | enterCustomCampaign
  | selectContentType
  | confirm
  | ended
deriving DecidableEq

inductive Ev where
  | text (s : String)
  | cb (tok : String)
  | startCmd
  | cancelCmd
deriving DecidableEq

/-- A `List`-level `String.startsWith` (UTF-8 position arithmetic avoided). -/
def strStartsWith (s p : String) : Bool := p.data.isPrefixOf s.data

/-- Python `str.replace(pat, "")` for a nonempty `pat`: remove every
non-overlapping occurrence, left to right (the handlers use it to strip
callback-prefixes such as `"chtype_"`). -/
def removeAllAux (pat : List Char) : Nat → List Char → List Char
  | _, [] => []
  | 0, l => l
  | fuel + 1, c :: rest =>
    if pat.isPrefixOf (c :: rest) then
      removeAllAux pat fuel ((c :: rest).drop pat.length)
    else c :: removeAllAux pat fuel rest

/-- Python `s.replace(pat, "")`. -/
def removeAll (pat s : String) : String := ⟨removeAllAux pat.data s.data.length s.data⟩

/-- The substitution `re.sub(r"^https?://(www\.)?higgsfield\.ai", "", raw)` in
`page_url_text`. -/
def stripHiggs (r : String) : String :=
  if strStartsWith r "https://www.higgsfield.ai" then ⟨r.data.drop 25⟩
  else if strStartsWith r "http://www.higgsfield.ai" then ⟨r.data.drop 24⟩
  else if strStartsWith r "https://higgsfield.ai" then ⟨r.data.drop 21⟩
  else if strStartsWith r "http://higgsfield.ai" then ⟨r.data.drop 20⟩
  else r

/-- Handler `page_url_text` (lines 361-367); the `String` component is the reply
text of the rendered next prompt. -/
def page_url_text (d : Answers) (s : String) : Step × Answers × String :=
  let r := stripHiggs (pyStrip s)
  let r := if strStartsWith r "/" then r else "/" ++ r
  (Step.selectChannelType, {d with page := some r},
   "✅ Page: `" ++ r ++ "`\n\n▶️ YouTube — Earn, Selected, or Main Channel?")

/-- Handler `channel_type_selected` (lines 392-436). -/
def channel_type_selected (d : Answers) (tok : String) : Step × Answers :=
  let chtype := removeAll "chtype_" tok
  let d := {d with channel_type := some chtype}
  if chtype = "earn" then (Step.selectEarnVisibility, d)
  else if chtype = "main" then
    (Step.selectCampaign, {d with handle := some "higgsfieldai", handle_mode := some "single"})
  else (Step.selectHandleMode, d)

/-- Handler `earn_visibility_selected` (lines 441-446). -/
def earn_visibility_selected (d : Answers) (tok : String) : Step × Answers :=
  (Step.selectHandleMode, {d with earn_visibility := some (removeAll "visibility_" tok)})

/-- Handler `handle_mode_selected` (lines 477-509). -/
def handle_mode_selected (d : Answers) (tok : String) : Step × Answers :=
  let mode := removeAll "hmode_" tok
  let d := {d with handle_mode := some mode}
  if mode = "single" then (Step.inputHandle, d) else (Step.inputBulkHandles, d)

/-- Handler `handle_received` (lines 514-546); the `String` component is the reply
text. -/
def handle_received (d : Answers) (s : String) : Step × Answers × String :=
  let raw := pyStrip s
  let handle := extract_yt_handle raw
  if handle = "" then
    (Step.inputHandle, d, "⚠️ Couldn't parse that. Try `@handle` or a YouTube URL.")
  else
    (Step.selectCampaign, {d with handle := some handle},
     "✅ Handle: `" ++ handle ++ "`\n\nPick the campaign.")

/-- Handler `bulk_handles_received` (lines 551-614); the `String` component is the
reply text. -/
def bulk_handles_received (d : Answers) (s : String) : Step × Answers × String :=
  let raw := pyStrip s
  let lines := bulkLines raw
  if lines.isEmpty then
    (Step.inputBulkHandles, d, "⚠️ No handles detected. Send one per line.")
  else
    let unique := (parseBulkInput s).1
    let failed := (parseBulkInput s).2
    if unique.isEmpty then
      (Step.inputBulkHandles, d,
       "⚠️ Couldn't parse any handles. Check the format and try again.")
    else
      let preview := String.intercalate "\n" ((unique.take 15).map (fun h => "  `" ++ h ++ "`"))
      let extra :=
        if 15 < unique.length then "\n  _...and " ++ toString (unique.length - 15) ++ " more_"
        else ""
      let failText :=
        if failed.isEmpty then ""
        else "\n\n⚠️ Skipped " ++ toString failed.length ++ ": " ++
          String.intercalate ", " ((failed.take 5).map (fun f => "`" ++ f ++ "`"))
      (Step.selectCampaign, {d with bulk_handles := unique, handle := some ""},
       "✅ *" ++ toString unique.length ++ " creators parsed:*\n" ++
         preview ++ extra ++ failText ++ "\n\nPick the campaign.")

/-- Handler `campaign_selected` (lines 619-635).  An unknown key would raise
`KeyError` in the source (only rendered buttons produce keys); embedded as
a stay-put step. -/
def campaign_selected (d : Answers) (tok : String) : Step × Answers :=
  let key := removeAll "campaign_" tok
  if key = "custom" then (Step.enterCustomCampaign, d)
  else
    match CAMPAIGNS.find? (fun c => c.key == key) with
    | some camp =>
      (Step.selectContentType,
       {d with campaign_slug := some camp.slug, campaign_label := some camp.label})
    | none => (Step.selectCampaign, d)

/-- Handler `custom_campaign_received` (lines 638-652); the `String` component is
the reply text. -/
def custom_campaign_received (d : Answers) (s : String) : Step × Answers × String :=
  let raw := pyStrip s
  let slug := sanitize raw
  if slug = "" then (Step.enterCustomCampaign, d, "⚠️ Invalid name. Try again.")
  else
    (Step.selectContentType,
     {d with campaign_slug := some slug, campaign_label := some raw},
     "✅ Campaign: `" ++ slug ++ "`\n\nPick the content type.")

/-- Handler `content_selected` (lines 678-696): stores the content-type code, then
branches on the truthiness of `bulk_handles`; only the single-mode branch
generates and stores `uid`. -/
def content_selected (d : Answers) (tok : String) (t : Nat) : Step × Answers :=
  let key := removeAll "content_" tok
  match List.lookup key CONTENT_TYPES with
  | none => (Step.selectContentType, d)
  | some code =>
    let d := {d with content_type := some code}
    match d.bulk_handles with
    | _ :: _ => (Step.confirm, d)
    | [] =>
      (Step.confirm,
       {d with uid := some (generate_id (d.handle.getD "") (d.campaign_slug.getD "")
          (d.content_type.getD "") t)})

/-- The eight `back_to_*` callback tokens. -/
def backTokens : List String :=
  ["back_to_page", "back_to_channel_type", "back_to_visibility",
   "back_to_handle_mode", "back_to_handle", "back_to_bulk",
   "back_to_campaign", "back_to_content"]

/-- The nav callbacks registered in every state (lines 870-880):
`nav_cancel` clears and ends, `back_to_page` re-runs `start` (which clears
`user_data`), and the remaining `back_to_*` handlers only re-render a prior
step without touching `user_data`. -/
def navStep (tok : String) (d : Answers) : Option (Step × Answers) :=
  if tok = "nav_cancel" then some (Step.ended, {})
  else if tok = "back_to_page" then some (Step.inputPageUrl, {})
  else if tok = "back_to_channel_type" then some (Step.selectChannelType, d)
  else if tok = "back_to_visibility" then some (Step.selectEarnVisibility, d)
  else if tok = "back_to_handle_mode" then some (Step.selectHandleMode, d)
  else if tok = "back_to_handle" then some (Step.inputHandle, d)
  else if tok = "back_to_bulk" then some (Step.inputBulkHandles, d)
  else if tok = "back_to_campaign" then some (Step.selectCampaign, d)
  else if tok = "back_to_content" then some (Step.selectContentType, d)
  else none

/-- One transition of the conversation handler (states table, lines
882-928).  Unmatched events leave the session untouched; `/start` (an
entry point and a fallback) and `restart` clear the answers and re-enter
the first step; `/cancel` and `nav_cancel` clear and end. -/
def stepFn (st : Step) (d : Answers) (e : Ev) (t : Nat) : Step × Answers :=
  match e with
  | .startCmd => (Step.inputPageUrl, {})
  | .cancelCmd => if st = Step.ended then (st, d) else (Step.ended, {})
  | .text s =>
    match st with
    | .inputPageUrl => ((page_url_text d s).1, (page_url_text d s).2.1)
    | .inputHandle => ((handle_received d s).1, (handle_received d s).2.1)
    | .inputBulkHandles => ((bulk_handles_received d s).1, (bulk_handles_received d s).2.1)
    | .enterCustomCampaign =>
      ((custom_campaign_received d s).1, (custom_campaign_received d s).2.1)
    | _ => (st, d)
  | .cb tok =>
    match st with
    | .selectChannelType =>
      if strStartsWith tok "chtype_" then channel_type_selected d tok
      else (navStep tok d).getD (st, d)
    | .selectEarnVisibility =>
      if strStartsWith tok "visibility_" then earn_visibility_selected d tok
      else (navStep tok d).getD (st, d)
    | .selectHandleMode =>
      if strStartsWith tok "hmode_" then handle_mode_selected d tok
      else (navStep tok d).getD (st, d)
    | .selectCampaign =>
      if strStartsWith tok "campaign_" then campaign_selected d tok
      else (navStep tok d).getD (st, d)
    | .selectContentType =>
      if strStartsWith tok "content_" then content_selected d tok t
      else (navStep tok d).getD (st, d)
    | .confirm =>
      if tok = "copy_link" then (st, d)
      else if tok = "copy_bulk" then (st, d)
      else if tok = "restart" then (Step.inputPageUrl, {})
      else (navStep tok d).getD (st, d)
    | .ended => (st, d)
    | _ => (navStep tok d).getD (st, d)

/-- Run a list of timed events from the state right after `/start`. -/
def runTrace (evs : List (Ev × Nat)) : Step × Answers :=
  evs.foldl (fun p e => stepFn p.1 p.2 e.1 e.2) (Step.inputPageUrl, {})

/-! ## Bulk output chunking (`copy_bulk`, src/utm_bot.py lines 776-813) -/

/-- Python `"\n\n".join(blocks)` — how `copy_bulk` renders a list of per-handle
blocks (and each chunk) into one message body. -/
def renderBlocks : List String → String
  | [] => ""
  | [b] => b
  | b :: rest => b ++ "\n\n" ++ renderBlocks rest

/-- The loop state of the splitting loop in `copy_bulk`: flushed chunks,
the chunk being filled, and the running `current_len` counter. -/
structure ChunkSt where
  chunks : List (List String)
  cur : List String
  curLen : Nat

/-- One iteration of `for block in lines:` in `copy_bulk`: flush the
current chunk when the counter would pass the limit, else append the block
and charge its length plus the 2-character joiner. -/
def chunkPush (limit : Nat) (st : ChunkSt) (block : String) : ChunkSt :=
  if limit < st.curLen + block.length + 2 then
    ⟨st.chunks ++ [st.cur], [block], block.length⟩
  else
    ⟨st.chunks, st.cur ++ [block], st.curLen + block.length + 2⟩

/-- The splitting logic of `copy_bulk` over an arbitrary block sequence
and limit (the source's limit is 4000), keeping each chunk as its list of
blocks; the source stores `"\n\n".join(chunk)`, i.e. `renderBlocks` of
each entry. -/
def chunkBlocks (limit : Nat) (blocks : List String) : List (List String) :=
  let st := blocks.foldl (chunkPush limit) ⟨[], [], 0⟩
  if st.cur.isEmpty then st.chunks else st.chunks ++ [st.cur]

/-- The messages `copy_bulk` sends for a given block sequence: one plain
message when the full text fits in 4000 characters, else the chunks, each
prefixed `📋 Part i/N`. -/
def copyBulkMessages (blocks : List String) : List String :=
  let full := renderBlocks blocks
  if 4000 < full.length then
    let chunks := (chunkBlocks 4000 blocks).map renderBlocks
    chunks.enum.map (fun p =>
      "📋 Part " ++ toString (p.1 + 1) ++ "/" ++ toString chunks.length ++ "\n\n" ++ p.2)
  else [full]

/-- What the spec asserts of one emitted chunk: it fits in the limit, or
it is a single block that alone exceeds the limit. -/
def chunkOk (limit : Nat) (c : List String) : Prop :=
  (renderBlocks c).length ≤ limit ∨ ∃ b, c = [b] ∧ limit < b.length

/-- Loop invariant of the splitting loop in `copy_bulk`: every flushed
chunk is `chunkOk`; the running counter dominates the rendered length of
the open chunk and is under the limit unless the open chunk is one
oversized block; flushed chunks plus the open chunk hold exactly the
processed blocks in order; the open chunk is empty only in the initial
state; and while nothing has been flushed the counter is under the limit. -/
def chunkInv (limit : Nat) (processed : List String) (st : ChunkSt) : Prop :=
  (∀ c ∈ st.chunks, chunkOk limit c) ∧
  (renderBlocks st.cur).length ≤ st.curLen ∧
  (st.curLen ≤ limit ∨ ∃ b, st.cur = [b] ∧ st.curLen = b.length) ∧
  st.chunks.flatten ++ st.cur = processed ∧
  (st.cur = [] → st.chunks = [] ∧ st.curLen = 0) ∧
  (st.chunks = [] → st.curLen ≤ limit)

/-! ## Well-formedness of slugs -/

/-- No two adjacent underscores. -/
def noDoubleUnderscore : List Char → Bool
  | [] => true
  | [_] => true
  | a :: b :: rest => !(a = '_' && b = '_') && noDoubleUnderscore (b :: rest)

/-- The well-formedness the spec asserts of normalizer output: every
character in `[a-z0-9_]`, no doubled underscore, no leading or trailing
underscore. -/
def slugOk (s : String) : Bool :=
  s.data.all isSlugChar && noDoubleUnderscore s.data &&
    decide (s.data.head? ≠ some '_') && decide (s.data.getLast? ≠ some '_')

/-- The pairwise relation behind `noDoubleUnderscore`. -/
def notBothUnderscore (a b : Char) : Prop := ¬(a = '_' ∧ b = '_')

/-- The characters `extract_yt_handle` sanitizes in its fallback branch:
everything after an optional leading `@`. -/
def afterAt (l : List Char) : List Char :=
  if l.head? = some '@' then l.tail else l

/-! ## The forward-flow visibility invariant -/

/-- Steps strictly after the Visibility decision point in the forward
flow. -/
def pastVisibility : Step → Bool
  | .selectHandleMode => true
  | .inputHandle => true
  | .inputBulkHandles => true
  | .selectCampaign => true
  | .enterCustomCampaign => true
  | .selectContentType => true
  | .confirm => true
  | _ => false

/-- Backward-navigation events (the eight `back_to_*` buttons). -/
def isBackEv : Ev → Bool
  | .cb tok => backTokens.contains tok
  | _ => false

/-- The amended C3 invariant: `earn_visibility` is set iff the channel
type is `earn` and the session is past the Visibility step; and at the
Visibility step itself the channel type is `earn`. -/
def invC3 (p : Step × Answers) : Prop :=
  (p.2.earn_visibility ≠ none ↔
    (p.2.channel_type = some "earn" ∧ pastVisibility p.1 = true)) ∧
  (p.1 = Step.selectEarnVisibility → p.2.channel_type = some "earn")

/-! ## Concrete data used by the claim theorems -/

/-- A completed single-mode answer set: `/kling-3`, channel type
`selected`, single handle `creatorx`, campaign `kling_3`, content type
`dedicated` (`de`), with a precomputed `uid`. -/
def singleAnswers : Answers :=
  { page := some "/kling-3", channel_type := some "selected",
    handle_mode := some "single", handle := some "creatorx",
    bulk_handles := [], campaign_slug := some "kling_3",
    campaign_label := some "🎬 Kling 3.0", content_type := some "de",
    uid := some "zzzzz" }

/-- Legitimate button/input sequence: bulk handles are entered, the
operator backtracks to the handle-mode step (the back target offered by
the bulk-preview message), switches to single mode, enters one handle,
and picks a campaign and a content type. -/
def bulkThenSingleTrace : List (Ev × Nat) :=
  [(Ev.text "x", 0), (Ev.cb "chtype_selected", 0), (Ev.cb "hmode_bulk", 0),
   (Ev.text "@a\n@b", 0), (Ev.cb "back_to_handle_mode", 0), (Ev.cb "hmode_single", 0),
   (Ev.text "@c", 0), (Ev.cb "campaign_general", 0), (Ev.cb "content_dedicated", 0)]

/-- Legitimate button sequence: earn visibility is chosen, then the
operator backtracks (Back from HandleMode goes to Visibility, Back from
Visibility goes to ChannelType) and picks `selected` instead. -/
def earnThenSelectedTrace : List (Ev × Nat) :=
  [(Ev.text "x", 0), (Ev.cb "chtype_earn", 0), (Ev.cb "visibility_pu", 0),
   (Ev.cb "back_to_visibility", 0), (Ev.cb "back_to_channel_type", 0),
   (Ev.cb "chtype_selected", 0)]

end UtmBot

namespace UtmBot

set_option maxRecDepth 10000

set_option maxHeartbeats 3200000

/-! ## Lemmas: sanitizer output is a well-formed slug -/

theorem mem_collapseUnderscores {x : Char} :
    ∀ (b : Bool) (l : List Char), x ∈ collapseUnderscores b l → x ∈ l := by
  intro b l
  induction l generalizing b with
  | nil => simp [collapseUnderscores]
  | cons c rest ih =>
    intro hx
    rw [collapseUnderscores] at hx
    by_cases hc : c = '_'
    · simp only [hc, if_true] at hx
      cases b with
      | true => exact List.mem_cons_of_mem _ (ih _ hx)
      | false =>
        rcases List.mem_cons.1 hx with h | h
        · simp [hc, h]
        · exact List.mem_cons_of_mem _ (ih _ h)
    · simp only [hc, if_false] at hx
      rcases List.mem_cons.1 hx with h | h
      · simp [h]
      · exact List.mem_cons_of_mem _ (ih _ h)

theorem collapseUnderscores_true_head :
    ∀ l : List Char, (collapseUnderscores true l).head? ≠ some '_' := by
  intro l
  induction l with
  | nil => simp [collapseUnderscores]
  | cons c rest ih =>
    rw [collapseUnderscores]
    by_cases hc : c = '_'
    · simpa [hc] using ih
    · simp [hc]

theorem chain'_collapseUnderscores :
    ∀ (b : Bool) (l : List Char), (collapseUnderscores b l).Chain' notBothUnderscore := by
  intro b l
  induction l generalizing b with
  | nil => simp [collapseUnderscores]
  | cons c rest ih =>
    rw [collapseUnderscores]
    by_cases hc : c = '_'
    · simp only [hc, if_true]
      cases b with
      | true => exact ih true
      | false =>
        refine List.chain'_cons'.2 ⟨?_, ih true⟩
        intro y hy
        intro hcon
        exact collapseUnderscores_true_head rest (by simpa [hcon.2] using hy)
    · simp only [hc, if_false]
      refine List.chain'_cons'.2 ⟨?_, ih false⟩
      intro y hy hcon
      exact hc hcon.1

theorem head?_dropWhile_not {p : Char → Bool} :
    ∀ {l : List Char} {a : Char}, (l.dropWhile p).head? = some a → p a = false := by
  intro l
  induction l with
  | nil => intro a h; simp [List.dropWhile] at h
  | cons c rest ih =>
    intro a h
    rw [List.dropWhile_cons] at h
    by_cases hc : p c
    · exact ih (by simpa [hc] using h)
    · simp only [hc, Bool.false_eq_true, if_false, List.head?_cons, Option.some.injEq] at h
      subst h
      exact Bool.eq_false_iff.2 hc

theorem getLast?_of_suffix {l₁ l₂ : List Char} (h : l₁ <:+ l₂) (hne : l₁ ≠ []) :
    l₁.getLast? = l₂.getLast? := by
  obtain ⟨t, rfl⟩ := h
  exact (List.getLast?_append_of_ne_nil t hne).symm

theorem notBothUnderscore_symm {a b : Char} (h : notBothUnderscore a b) :
    notBothUnderscore b a := by
  intro hcon
  exact h ⟨hcon.2, hcon.1⟩

theorem chain'_reverse_self {l : List Char} (h : l.Chain' notBothUnderscore) :
    l.reverse.Chain' notBothUnderscore := by
  rw [List.chain'_reverse]
  exact h.imp (fun a b hab => notBothUnderscore_symm hab)

theorem chain'_stripList {l : List Char} (p : Char → Bool)
    (h : l.Chain' notBothUnderscore) :
    (stripList p l).Chain' notBothUnderscore := by
  unfold stripList
  apply chain'_reverse_self
  refine List.Chain'.suffix ?_ (List.dropWhile_suffix p)
  apply chain'_reverse_self
  exact List.Chain'.suffix h (List.dropWhile_suffix p)

theorem noDoubleUnderscore_iff_chain' :
    ∀ l : List Char, noDoubleUnderscore l = true ↔ l.Chain' notBothUnderscore := by
  intro l
  induction l with
  | nil => simp [noDoubleUnderscore]
  | cons a rest ih =>
    cases rest with
    | nil => simp [noDoubleUnderscore]
    | cons b r =>
      rw [noDoubleUnderscore, List.chain'_cons]
      rw [Bool.and_eq_true, Bool.not_eq_true']
      rw [ih]
      constructor
      · rintro ⟨h1, h2⟩
        refine ⟨?_, h2⟩
        intro hcon
        simp [hcon.1, hcon.2] at h1
      · rintro ⟨h1, h2⟩
        refine ⟨?_, h2⟩
        by_cases ha : a = '_'
        · by_cases hb : b = '_'
          · exact absurd ⟨ha, hb⟩ h1
          · simp [hb]
        · simp [ha]

theorem mem_stripList {x : Char} {l : List Char} (p : Char → Bool)
    (h : x ∈ stripList p l) : x ∈ l := by
  unfold stripList at h
  rw [List.mem_reverse] at h
  have h2 := (List.dropWhile_suffix p).sublist.subset h
  rw [List.mem_reverse] at h2
  exact (List.dropWhile_suffix p).sublist.subset h2

theorem head?_stripList_not {l : List Char} {p : Char → Bool} {a : Char}
    (h : (stripList p l).head? = some a) : p a = false := by
  unfold stripList at h
  rw [List.head?_reverse] at h
  have hC : (((l.dropWhile p).reverse.dropWhile p)) ≠ [] := by
    intro hnil
    rw [hnil] at h
    simp at h
  have := getLast?_of_suffix (List.dropWhile_suffix p (l := (l.dropWhile p).reverse)) hC
  rw [this] at h
  rw [List.getLast?_reverse] at h
  exact head?_dropWhile_not h

theorem getLast?_stripList_not {l : List Char} {p : Char → Bool} {a : Char}
    (h : (stripList p l).getLast? = some a) : p a = false := by
  unfold stripList at h
  rw [List.getLast?_reverse] at h
  exact head?_dropWhile_not h

theorem sanitize_slugOk (s : String) : slugOk (sanitize s) = true := by
  unfold sanitize slugOk
  simp only [Bool.and_eq_true, List.all_eq_true, decide_eq_true_eq]
  refine ⟨⟨⟨?_, ?_⟩, ?_⟩, ?_⟩
  · intro c hc
    have h1 := mem_stripList _ hc
    have h2 := mem_collapseUnderscores _ _ h1
    exact List.of_mem_filter h2
  · rw [noDoubleUnderscore_iff_chain']
    exact chain'_stripList _ (chain'_collapseUnderscores false _)
  · intro hcon
    have := head?_stripList_not hcon
    simp at this
  · intro hcon
    have := getLast?_stripList_not hcon
    simp at this

/-! ## C7 — `sanitize` -/

/-- C7: `sanitize` is a total function; `sanitize "Soul Launch--Feb!!"`
is `"soul_launch_feb"`, the empty input yields the empty output, and every
output is a well-formed slug (characters in `[a-z0-9_]`, no doubled and no
leading/trailing underscore) — the lowercase/trim/replace/strip/collapse
pipeline is the definition of `sanitize` itself, read off the source. -/
theorem sanitize_correct :
    sanitize "Soul Launch--Feb!!" = "soul_launch_feb" ∧
    sanitize "" = "" ∧
    ∀ s : String, slugOk (sanitize s) = true :=
  ⟨by decide, by decide, sanitize_slugOk⟩

/-! ## C6 — `extract_yt_handle` -/

/-- C6: `extract_yt_handle` never throws (it is a total function), its
output is always a well-formed slug matching `^[a-z0-9_]*$` with no
leading/trailing/doubled underscore, the three spec examples hold, and
whenever the first URL pattern (`youtube.com/@…`) matches, the result is
the sanitized captured segment. -/
theorem extract_yt_handle_correct :
    extract_yt_handle "https://youtube.com/@LinusTech" = "linustech" ∧
    extract_yt_handle "@mkbhd" = "mkbhd" ∧
    extract_yt_handle "unbox_therapy" = "unbox_therapy" ∧
    (∀ s : String, slugOk (extract_yt_handle s) = true) ∧
    (∀ (s : String) (cap : List Char),
      searchCapture "youtube.com/@".data isHandleChar (pyStrip s).data = some cap →
      extract_yt_handle s = sanitize ⟨cap⟩) := by
  refine ⟨by decide, by decide, by decide, ?_, ?_⟩
  · intro s
    unfold extract_yt_handle
    cases h1 : searchCapture "youtube.com/@".data isHandleChar (pyStrip s).data with
    | some cap => exact sanitize_slugOk _
    | none =>
    dsimp only
    cases h2 : searchCapture "youtube.com/c/".data isHandleChar (pyStrip s).data with
    | some cap => exact sanitize_slugOk _
    | none =>
    dsimp only
    cases h3 : searchCapture "youtube.com/channel/".data isChannelChar (pyStrip s).data with
    | some cap => exact sanitize_slugOk _
    | none =>
    dsimp only
    cases h4 : searchCapture "youtube.com/user/".data isHandleChar (pyStrip s).data with
    | some cap => exact sanitize_slugOk _
    | none =>
    dsimp only
    by_cases h5 : (pyStrip s).data.head? = some '@'
    · rw [if_pos h5]
      exact sanitize_slugOk _
    · rw [if_neg h5]
      exact sanitize_slugOk _
  · intro s cap h
    unfold extract_yt_handle
    rw [h]

/-- Witness for C6: the first URL pattern matches the LinusTech URL with
capture `LinusTech`, and the result is its sanitization. -/
theorem extract_yt_handle_correct_witness :
    extract_yt_handle "https://youtube.com/@LinusTech" = sanitize ⟨"LinusTech".data⟩ :=
  extract_yt_handle_correct.2.2.2.2 "https://youtube.com/@LinusTech" "LinusTech".data
    (by decide)

/-! ## C8 — `build_source` -/

/-- C8: `build_source` returns `youtube_e_<visibility>` for channel type
`earn` (visibility defaulting to `pu` when missing), `youtube_m` for
`main`, and `youtube_s` for anything else (including a missing channel
type); in particular earn/private gives `youtube_e_pr` (the stored
visibility token for Private is `pr`). -/
theorem build_source_correct :
    (∀ d : Answers, d.channel_type.getD "" = "earn" →
      build_source d = "youtube_e_" ++ d.earn_visibility.getD "pu") ∧
    (∀ d : Answers, d.channel_type.getD "" = "main" → build_source d = "youtube_m") ∧
    (∀ d : Answers, d.channel_type.getD "" ≠ "earn" → d.channel_type.getD "" ≠ "main" →
      build_source d = "youtube_s") ∧
    build_source {channel_type := some "earn", earn_visibility := some "pr"} =
      "youtube_e_pr" ∧
    build_source {channel_type := some "earn"} = "youtube_e_pu" ∧
    build_source {channel_type := some "main"} = "youtube_m" ∧
    build_source {channel_type := some "selected"} = "youtube_s" := by
  refine ⟨?_, ?_, ?_, by decide, by decide, by decide, by decide⟩
  · intro d h
    unfold build_source
    rw [h]
    simp
  · intro d h
    unfold build_source
    rw [h]
    simp
  · intro d h1 h2
    unfold build_source
    rw [if_neg h1, if_neg h2]

/-- Witness for C8: the three conditional clauses applied at concrete
answer sets. -/
theorem build_source_correct_witness :
    build_source {channel_type := some "earn", earn_visibility := some "pu"} =
      "youtube_e_" ++ (some "pu").getD "pu" ∧
    build_source {channel_type := some "main", earn_visibility := none} = "youtube_m" ∧
    build_source {channel_type := some "selected", earn_visibility := none} = "youtube_s" :=
  ⟨build_source_correct.1 _ (by decide),
   build_source_correct.2.1 _ (by decide),
   build_source_correct.2.2.1 _ (by decide) (by decide)⟩

/-! ## Lemmas: the `copy_bulk` splitting loop -/

theorem renderBlocks_append (l : List String) (b : String) :
    renderBlocks (l ++ [b]) = if l.isEmpty then b else renderBlocks l ++ "\n\n" ++ b := by
  induction l with
  | nil => simp [renderBlocks]
  | cons x xs ih =>
    cases xs with
    | nil => simp [renderBlocks]
    | cons y ys =>
      have e : renderBlocks ((x :: y :: ys) ++ [b]) =
          x ++ "\n\n" ++ renderBlocks ((y :: ys) ++ [b]) := rfl
      rw [e, ih]
      simp [renderBlocks, String.append_assoc]

theorem chunkPush_inv {limit : Nat} {processed : List String} {st : ChunkSt}
    (h : chunkInv limit processed st) (b : String) :
    chunkInv limit (processed ++ [b]) (chunkPush limit st b) := by
  obtain ⟨h1, h2, h3, h4, h5, h6⟩ := h
  unfold chunkPush
  split
  · unfold chunkInv
    dsimp only
    refine ⟨?_, by simp [renderBlocks], Or.inr ⟨b, rfl, rfl⟩, ?_, ?_, ?_⟩
    · intro c hc
      rcases List.mem_append.1 hc with hc | hc
      · exact h1 c hc
      · have hc' : c = st.cur := by simpa using hc
        subst hc'
        by_cases hle : st.curLen ≤ limit
        · exact Or.inl (le_trans h2 hle)
        · rcases h3 with h3 | ⟨b', hb', hlen⟩
          · exact absurd h3 hle
          · exact Or.inr ⟨b', hb', by omega⟩
    · rw [List.flatten_append]
      simp only [List.flatten_cons, List.flatten_nil, List.append_nil]
      rw [h4]
    · intro hcon; simp at hcon
    · intro hcon; simp at hcon
  · rename_i hgt
    unfold chunkInv
    dsimp only
    have hle : st.curLen + b.length + 2 ≤ limit := by omega
    refine ⟨h1, ?_, Or.inl hle, ?_, ?_, fun _ => hle⟩
    · rw [renderBlocks_append]
      split
      · omega
      · rw [String.length_append, String.length_append]
        have e2 : ("\n\n" : String).length = 2 := rfl
        rw [e2]
        omega
    · rw [← List.append_assoc, h4]
    · intro hcon; simp at hcon

theorem chunkInv_init (limit : Nat) : chunkInv limit [] ⟨[], [], 0⟩ := by
  unfold chunkInv
  refine ⟨by simp, by simp [renderBlocks], Or.inl (Nat.zero_le _), by simp, ?_, ?_⟩
  · intro hcon
    exact ⟨rfl, rfl⟩
  · intro hcon
    exact Nat.zero_le _

theorem chunkFold_inv (limit : Nat) :
    ∀ (bs processed : List String) (st : ChunkSt),
      chunkInv limit processed st →
      chunkInv limit (processed ++ bs) (bs.foldl (chunkPush limit) st) := by
  intro bs
  induction bs with
  | nil => intro processed st h; simpa using h
  | cons b rest ih =>
    intro processed st h
    have h2 := ih (processed ++ [b]) _ (chunkPush_inv h b)
    simpa [List.append_assoc] using h2

theorem chunkBlocks_inv (limit : Nat) (blocks : List String) :
    chunkInv limit blocks (blocks.foldl (chunkPush limit) ⟨[], [], 0⟩) := by
  simpa using chunkFold_inv limit blocks [] _ (chunkInv_init limit)

theorem chunkBlocks_chunkOk {limit : Nat} {blocks c : List String}
    (hc : c ∈ chunkBlocks limit blocks) : chunkOk limit c := by
  obtain ⟨h1, h2, h3, h4, h5, h6⟩ := chunkBlocks_inv limit blocks
  unfold chunkBlocks at hc
  dsimp only at hc
  split at hc
  · exact h1 c hc
  · rcases List.mem_append.1 hc with hm | hm
    · exact h1 c hm
    · have hc' : c = (blocks.foldl (chunkPush limit) ⟨[], [], 0⟩).cur := by simpa using hm
      subst hc'
      by_cases hle : (blocks.foldl (chunkPush limit) ⟨[], [], 0⟩).curLen ≤ limit
      · exact Or.inl (le_trans h2 hle)
      · rcases h3 with h3 | ⟨b', hb', hlen⟩
        · exact absurd h3 hle
        · exact Or.inr ⟨b', hb', by omega⟩

theorem chunkBlocks_flatten (limit : Nat) (blocks : List String) :
    (chunkBlocks limit blocks).flatten = blocks := by
  obtain ⟨h1, h2, h3, h4, h5, h6⟩ := chunkBlocks_inv limit blocks
  unfold chunkBlocks
  dsimp only
  split
  · rename_i hemp
    rw [List.isEmpty_iff] at hemp
    rw [hemp, List.append_nil] at h4
    exact h4
  · rw [List.flatten_append]
    simpa using h4

theorem chunkBlocks_ge_two {limit : Nat} {blocks : List String}
    (h : limit < (renderBlocks blocks).length) :
    2 ≤ (chunkBlocks limit blocks).length := by
  obtain ⟨h1, h2, h3, h4, h5, h6⟩ := chunkBlocks_inv limit blocks
  by_contra hlt
  push_neg at hlt
  unfold chunkBlocks at hlt
  dsimp only at hlt
  rcases hcur : (blocks.foldl (chunkPush limit) ⟨[], [], 0⟩).cur with _ | ⟨x, xs⟩
  · obtain ⟨hch, _⟩ := h5 hcur
    rw [hch, hcur] at h4
    simp only [List.flatten_nil, List.nil_append] at h4
    rw [← h4] at h
    simp [renderBlocks] at h
  · rw [hcur] at hlt
    simp only [List.isEmpty_cons, Bool.false_eq_true, if_false, List.length_append,
      List.length_cons, List.length_nil] at hlt
    have hch : (blocks.foldl (chunkPush limit) ⟨[], [], 0⟩).chunks = [] := by
      cases hcase : (blocks.foldl (chunkPush limit) ⟨[], [], 0⟩).chunks with
      | nil => rfl
      | cons a as =>
        rw [hcase] at hlt
        simp at hlt
        omega
    have hc6 := h6 hch
    have hrender := le_trans h2 hc6
    rw [hch, hcur] at h4
    simp only [List.flatten_nil, List.nil_append] at h4
    rw [← h4] at h
    rw [hcur] at hrender
    omega

theorem copyBulkMessages_small {blocks : List String}
    (h : (renderBlocks blocks).length ≤ 4000) :
    copyBulkMessages blocks = [renderBlocks blocks] := by
  unfold copyBulkMessages
  rw [if_neg (by omega)]

theorem copyBulkMessages_large {blocks : List String}
    (h : 4000 < (renderBlocks blocks).length) :
    copyBulkMessages blocks =
      ((chunkBlocks 4000 blocks).map renderBlocks).enum.map (fun p =>
        "📋 Part " ++ toString (p.1 + 1) ++ "/" ++
          toString (chunkBlocks 4000 blocks).length ++ "\n\n" ++ p.2) := by
  unfold copyBulkMessages
  rw [if_pos h]
  simp [List.length_map]

/-! ## C4 — `chunkForTransport` -/

/-- C4: every chunk produced by the `copy_bulk` splitting logic either
renders within the limit or is a single block that alone exceeds the
limit; the chunks concatenate back to the original block sequence in
order; and output is numbered `Part i/N` exactly when more than one chunk
results (the split path runs only when the full text exceeds 4000
characters, in which case at least two chunks are produced; otherwise one
unnumbered message is sent). -/
theorem chunkForTransport_correct :
    (∀ (limit : Nat) (blocks c : List String), c ∈ chunkBlocks limit blocks →
      (renderBlocks c).length ≤ limit ∨ ∃ b, c = [b] ∧ limit < b.length) ∧
    (∀ (limit : Nat) (blocks : List String), (chunkBlocks limit blocks).flatten = blocks) ∧
    (∀ blocks : List String, 4000 < (renderBlocks blocks).length →
      2 ≤ (chunkBlocks 4000 blocks).length ∧
      copyBulkMessages blocks =
        ((chunkBlocks 4000 blocks).map renderBlocks).enum.map (fun p =>
          "📋 Part " ++ toString (p.1 + 1) ++ "/" ++
            toString (chunkBlocks 4000 blocks).length ++ "\n\n" ++ p.2)) ∧
    (∀ blocks : List String, (renderBlocks blocks).length ≤ 4000 →
      copyBulkMessages blocks = [renderBlocks blocks]) := by
  refine ⟨?_, ?_, ?_, ?_⟩
  · intro limit blocks c hc
    exact chunkBlocks_chunkOk hc
  · intro limit blocks
    exact chunkBlocks_flatten limit blocks
  · intro blocks h
    exact ⟨chunkBlocks_ge_two h, copyBulkMessages_large h⟩
  · intro blocks h
    exact copyBulkMessages_small h

/-- Witness for C4 at concrete inputs: a two-block sequence fits in one
chunk of limit 10 and concatenates back; a single short message is sent
unnumbered; a 4001-character block forces the numbered split path with at
least two chunks. -/
theorem chunkForTransport_correct_witness :
    ((renderBlocks ["aaa", "bb"]).length ≤ 10 ∨
      ∃ b, (["aaa", "bb"] : List String) = [b] ∧ 10 < b.length) ∧
    (chunkBlocks 10 ["aaa", "bb"]).flatten = ["aaa", "bb"] ∧
    copyBulkMessages ["hi"] = [renderBlocks ["hi"]] ∧
    2 ≤ (chunkBlocks 4000 [⟨List.replicate 4001 'a'⟩]).length :=
  ⟨chunkForTransport_correct.1 10 ["aaa", "bb"] ["aaa", "bb"] (by decide),
   chunkForTransport_correct.2.1 10 ["aaa", "bb"],
   chunkForTransport_correct.2.2.2 ["hi"] (by decide),
   (chunkForTransport_correct.2.2.1 [⟨List.replicate 4001 'a'⟩] (by
      have e : (renderBlocks [(⟨List.replicate 4001 'a'⟩ : String)]).length =
          (List.replicate 4001 'a').length := rfl
      rw [e, List.length_replicate]
      omega)).1⟩

/-! ## C1 — `build_utm_url` regenerates the content id on every call -/

/-- C1 (code bug): the spec says the single-mode content id is taken from
the precomputed `answers.uid`, making `buildUrl` idempotent; the code
calls `generate_id` (which hashes the current `time.time_ns()`) on every
invocation and never reads `answers.uid`.  Two calls at different instants
produce different `utm_content` values, the displayed summary (which does
use `answers.uid`) disagrees with the URL rendered next to it, and the
`uid` field is provably irrelevant to `build_utm_url`. -/
theorem buildUrl_regenerates_content_id :
    build_utm_url singleAnswers 1000 none =
      some ("https://higgsfield.ai/kling-3?utm_source=youtube_s&utm_medium=creatorx" ++
        "&utm_campaign=kling_3&utm_content=de_bbe24") ∧
    build_utm_url singleAnswers 1001 none =
      some ("https://higgsfield.ai/kling-3?utm_source=youtube_s&utm_medium=creatorx" ++
        "&utm_campaign=kling_3&utm_content=de_80029") ∧
    build_utm_url singleAnswers 1000 none ≠ build_utm_url singleAnswers 1001 none ∧
    build_summary singleAnswers =
      "📋 *UTM Link Summary*\n\n🌐 *Source:* `youtube_s`\n📡 *Medium:* `creatorx`" ++
        "\n🎯 *Campaign:* `kling_3`\n📝 *Content:* `de_zzzzz`" ∧
    build_utm_url singleAnswers 1000 (some "mkbhd") ≠
      build_utm_url singleAnswers 1001 (some "mkbhd") ∧
    (∀ (d : Answers) (u : Option String) (t : Nat) (ho : Option String),
      build_utm_url {d with uid := u} t ho = build_utm_url d t ho) := by
  refine ⟨by decide, by decide, by decide, by decide, by decide, ?_⟩
  intro d u t ho
  cases d
  rfl

/-! ## C2 — stale `bulk_handles` survive a switch back to single mode -/

/-- C2 (code bug): `bulk_handles_received` clears `handle` (source comment
`# clear single handle`), but `handle_received` does not clear
`bulk_handles`.  After entering bulk handles, going Back to the handle-mode
step, choosing Single and entering a handle — all via offered buttons — the
session holds a non-empty `handle` AND non-empty `bulk_handles`, and the
content-type step then takes the bulk confirm branch (no `uid` is
generated), ignoring the single handle just entered. -/
theorem bulk_then_single_breaks_exclusivity :
    (runTrace bulkThenSingleTrace).1 = Step.confirm ∧
    (runTrace bulkThenSingleTrace).2.handle = some "c" ∧
    (runTrace bulkThenSingleTrace).2.bulk_handles = ["a", "b"] ∧
    (runTrace bulkThenSingleTrace).2.handle_mode = some "single" ∧
    (runTrace bulkThenSingleTrace).2.uid = none := by
  decide

/-! ## C3 — `earnVisibility` outlives `channelType = earn` -/

/-- C3 (counterexample): a reachable state (via the offered Back buttons)
has `earn_visibility` still set while `channel_type` is `selected` —
`channel_type_selected` never clears `earn_visibility`.  This refutes
"`earnVisibility` is defined iff `channelType = earn`" over all reachable
states. -/
theorem stale_earn_visibility_reachable :
    (runTrace earnThenSelectedTrace).1 = Step.selectHandleMode ∧
    (runTrace earnThenSelectedTrace).2.earn_visibility = some "pu" ∧
    (runTrace earnThenSelectedTrace).2.channel_type = some "selected" := by
  decide

/-! ## Lemmas: the dedup loop of `bulk_handles_received` -/

theorem dedupKeepFirst_not_mem_seen :
    ∀ (l seen : List String) (x : String), x ∈ dedupKeepFirst seen l → x ∉ seen := by
  intro l
  induction l with
  | nil => intro seen x hx; simp [dedupKeepFirst] at hx
  | cons h rest ih =>
    intro seen x hx
    rw [dedupKeepFirst] at hx
    by_cases hm : h ∈ seen
    · rw [if_pos hm] at hx
      exact ih seen x hx
    · rw [if_neg hm] at hx
      rcases List.mem_cons.1 hx with hx | hx
      · subst hx; exact hm
      · intro hseen
        exact ih (h :: seen) x hx (List.mem_cons_of_mem _ hseen)

theorem dedupKeepFirst_nodup :
    ∀ (l seen : List String), (dedupKeepFirst seen l).Nodup := by
  intro l
  induction l with
  | nil => intro seen; simp [dedupKeepFirst]
  | cons h rest ih =>
    intro seen
    rw [dedupKeepFirst]
    by_cases hm : h ∈ seen
    · rw [if_pos hm]; exact ih seen
    · rw [if_neg hm]
      refine List.nodup_cons.2 ⟨?_, ih (h :: seen)⟩
      intro hcon
      exact dedupKeepFirst_not_mem_seen rest (h :: seen) h hcon (List.mem_cons_self h _)

theorem dedupKeepFirst_sublist :
    ∀ (l seen : List String), List.Sublist (dedupKeepFirst seen l) l := by
  intro l
  induction l with
  | nil => intro seen; simp [dedupKeepFirst]
  | cons h rest ih =>
    intro seen
    rw [dedupKeepFirst]
    by_cases hm : h ∈ seen
    · rw [if_pos hm]; exact (ih seen).cons h
    · rw [if_neg hm]; exact (ih (h :: seen)).cons₂ h

theorem mem_dedupKeepFirst :
    ∀ (l seen : List String) (x : String), x ∈ l → x ∉ seen →
      x ∈ dedupKeepFirst seen l := by
  intro l
  induction l with
  | nil => intro seen x hx; simp at hx
  | cons h rest ih =>
    intro seen x hx hseen
    rw [dedupKeepFirst]
    by_cases heq : x = h
    · subst heq
      rw [if_neg hseen]
      exact List.mem_cons_self x _
    · have hrest : x ∈ rest := by
        rcases List.mem_cons.1 hx with hx | hx
        · exact absurd hx heq
        · exact hx
      by_cases hm : h ∈ seen
      · rw [if_pos hm]; exact ih seen x hrest hseen
      · rw [if_neg hm]
        refine List.mem_cons_of_mem _ (ih (h :: seen) x hrest ?_)
        intro hcon
        rcases List.mem_cons.1 hcon with hcon | hcon
        · exact heq hcon
        · exact hseen hcon

/-! ## C5 — `parseBulkInput` -/

/-- C5: bulk input is split into stripped nonblank lines; a line is
accepted iff its extracted handle is nonempty and is recorded as rejected
(in order, original line preserved) otherwise; accepted handles are
deduplicated keeping the first occurrence (no duplicates remain, order is
a subsequence of the extraction order, and no handle is lost); the spec's
example `"@a\na\nA "` yields exactly `["a"]`; and the bulk input step
re-prompts (stays at `InputBulkHandles` with answers untouched) iff the
accepted set is empty. -/
theorem parseBulkInput_correct :
    parseBulkInput "@a\na\nA " = (["a"], []) ∧
    (∀ s : String, (parseBulkInput s).2 =
      (bulkLines (pyStrip s)).filter (fun l => extract_yt_handle l = "")) ∧
    (∀ s : String, (parseBulkInput s).1 =
      dedupKeepFirst [] ((bulkLines (pyStrip s)).filterMap
        (fun l => if extract_yt_handle l = "" then none
          else some (extract_yt_handle l)))) ∧
    (∀ s : String, (parseBulkInput s).1.Nodup) ∧
    (∀ s : String, List.Sublist (parseBulkInput s).1 ((bulkLines (pyStrip s)).filterMap
      (fun l => if extract_yt_handle l = "" then none
        else some (extract_yt_handle l)))) ∧
    (∀ s x : String, x ∈ (bulkLines (pyStrip s)).filterMap
      (fun l => if extract_yt_handle l = "" then none
        else some (extract_yt_handle l)) → x ∈ (parseBulkInput s).1) ∧
    (∀ (s : String) (d : Answers) (t : Nat),
      stepFn Step.inputBulkHandles d (Ev.text s) t = (Step.inputBulkHandles, d) ↔
      (parseBulkInput s).1 = []) := by
  refine ⟨by decide, fun s => rfl, fun s => rfl, fun s => ?_, fun s => ?_, ?_, ?_⟩
  · exact dedupKeepFirst_nodup _ []
  · exact dedupKeepFirst_sublist _ []
  · intro s x hx
    exact mem_dedupKeepFirst _ [] x hx (by simp)
  · intro s d t
    have e : stepFn Step.inputBulkHandles d (Ev.text s) t =
        ((bulk_handles_received d s).1, (bulk_handles_received d s).2.1) := rfl
    rw [e]
    constructor
    · intro hstep
      unfold bulk_handles_received at hstep
      dsimp only at hstep
      split at hstep
      · rename_i hL
        rw [List.isEmpty_iff] at hL
        show dedupKeepFirst [] ((bulkLines (pyStrip s)).filterMap _) = []
        rw [hL]
        rfl
      · split at hstep
        · rename_i hU
          exact List.isEmpty_iff.1 hU
        · simp at hstep
    · intro hacc
      unfold bulk_handles_received
      dsimp only
      split
      · rfl
      · have hU : ((parseBulkInput s).1).isEmpty = true := by
          rw [hacc]; rfl
        rw [if_pos hU]

/-- Witness for C5: the accepted handle of a concrete mixed bulk message
survives dedup, and a bulk message with no parseable handle leaves the
step and the answers unchanged. -/
theorem parseBulkInput_correct_witness :
    "a" ∈ (parseBulkInput "@a\n!!").1 ∧
    stepFn Step.inputBulkHandles {} (Ev.text "!!") 0 = (Step.inputBulkHandles, {}) :=
  ⟨parseBulkInput_correct.2.2.2.2.2.1 "@a\n!!" "a" (by decide),
   (parseBulkInput_correct.2.2.2.2.2.2 "!!" {} 0).mpr (by decide)⟩

/-! ## Lemmas: characters surviving `sanitize`, strip idempotence -/

theorem toNat_ofNat_of_lt {m : Nat} (h : m < 55296) : (Char.ofNat m).toNat = m := by
  rw [Char.ofNat, dif_pos (Or.inl h)]
  rfl

theorem toLowerPy_range {c : Char} (h : isAsciiAlphaNum c = true) :
    (97 ≤ (toLowerPy c).toNat ∧ (toLowerPy c).toNat ≤ 122) ∨
      (48 ≤ (toLowerPy c).toNat ∧ (toLowerPy c).toNat ≤ 57) := by
  simp only [isAsciiAlphaNum, Bool.or_eq_true, Bool.and_eq_true,
    decide_eq_true_eq] at h
  unfold toLowerPy
  rcases h with (⟨h1, h2⟩ | ⟨h1, h2⟩) | ⟨h1, h2⟩
  · rw [if_pos ⟨h1, h2⟩, toNat_ofNat_of_lt (by omega)]
    left
    omega
  · rw [if_neg (by omega)]
    left
    exact ⟨h1, h2⟩
  · rw [if_neg (by omega)]
    right
    exact ⟨h1, h2⟩

theorem char_survives_sanitize {c' : Char}
    (h : (97 ≤ c'.toNat ∧ c'.toNat ≤ 122) ∨ (48 ≤ c'.toNat ∧ c'.toNat ≤ 57)) :
    isSlugChar c' = true ∧ isPySpace c' = false ∧ c' ≠ '-' ∧ c' ≠ ' ' ∧ c' ≠ '_' := by
  have h48 : 48 ≤ c'.toNat := by rcases h with ⟨h1, _⟩ | ⟨h1, _⟩ <;> omega
  have hne : ∀ d : Char, d.toNat < 48 → c' ≠ d := by
    intro d hd he
    rw [he] at h48
    omega
  refine ⟨?_, ?_, hne '-' (by decide), hne ' ' (by decide), ?_⟩
  · simp only [isSlugChar, Bool.or_eq_true, Bool.and_eq_true, decide_eq_true_eq]
    rcases h with h | h
    · exact Or.inl (Or.inl h)
    · exact Or.inl (Or.inr h)
  · simp only [isPySpace, Bool.or_eq_false_iff, decide_eq_false_iff_not]
    exact ⟨⟨⟨⟨⟨hne ' ' (by decide), hne '\t' (by decide)⟩, hne '\n' (by decide)⟩,
      hne '\r' (by decide)⟩, hne (Char.ofNat 11) (by decide)⟩, hne (Char.ofNat 12) (by decide)⟩
  · intro he
    have h95 : ('_').toNat = 95 := by decide
    rw [he] at h
    omega

theorem mem_dropWhile_of_not {p : Char → Bool} {x : Char} :
    ∀ {l : List Char}, x ∈ l → p x = false → x ∈ l.dropWhile p := by
  intro l
  induction l with
  | nil => intro hx; simp at hx
  | cons c cs ih =>
    intro hx hp
    rw [List.dropWhile_cons]
    by_cases hc : p c
    · rw [if_pos (by simpa using hc)]
      rcases List.mem_cons.1 hx with hx | hx
      · subst hx; rw [hc] at hp; cases hp
      · exact ih hx hp
    · rw [if_neg (by simpa using hc)]
      exact hx

theorem mem_stripList_of_not {p : Char → Bool} {x : Char} {l : List Char}
    (hx : x ∈ l) (hp : p x = false) : x ∈ stripList p l := by
  unfold stripList
  rw [List.mem_reverse]
  apply mem_dropWhile_of_not _ hp
  rw [List.mem_reverse]
  exact mem_dropWhile_of_not hx hp

theorem mem_collapseUnderscores_of_ne {x : Char} (hx : x ≠ '_') :
    ∀ (b : Bool) (l : List Char), x ∈ l → x ∈ collapseUnderscores b l := by
  intro b l
  induction l generalizing b with
  | nil => intro h; simp at h
  | cons c rest ih =>
    intro h
    rw [collapseUnderscores]
    by_cases hc : c = '_'
    · rw [if_pos hc]
      have hrest : x ∈ rest := by
        rcases List.mem_cons.1 h with h | h
        · subst hc; exact absurd h hx
        · exact h
      cases b with
      | true => exact ih true hrest
      | false => exact List.mem_cons_of_mem _ (ih true hrest)
    · rw [if_neg hc]
      rcases List.mem_cons.1 h with h | h
      · subst h; exact List.mem_cons_self x _
      · exact List.mem_cons_of_mem _ (ih false h)

theorem sanitize_ne_empty {l : List Char} {c : Char} (hc : c ∈ l)
    (halnum : isAsciiAlphaNum c = true) : sanitize ⟨l⟩ ≠ "" := by
  obtain ⟨hslug, hspace, hhyph, hsp, hund⟩ :=
    char_survives_sanitize (toLowerPy_range halnum)
  have m1 : toLowerPy c ∈ l.map toLowerPy := List.mem_map_of_mem _ hc
  have m2 : toLowerPy c ∈ stripList isPySpace (l.map toLowerPy) :=
    mem_stripList_of_not m1 hspace
  have m3 : toLowerPy c ∈ (stripList isPySpace (l.map toLowerPy)).map
      (fun ch => if ch = '-' then '_' else ch) :=
    List.mem_map.2 ⟨toLowerPy c, m2, by rw [if_neg hhyph]⟩
  have m4 : toLowerPy c ∈ ((stripList isPySpace (l.map toLowerPy)).map
      (fun ch => if ch = '-' then '_' else ch)).map
      (fun ch => if ch = ' ' then '_' else ch) :=
    List.mem_map.2 ⟨toLowerPy c, m3, by rw [if_neg hsp]⟩
  have m5 := List.mem_filter.2 ⟨m4, hslug⟩
  have m6 := mem_collapseUnderscores_of_ne hund false _ m5
  have m7 : toLowerPy c ∈ (sanitize ⟨l⟩).data :=
    mem_stripList_of_not m6 (by simp [hund])
  intro hcon
  rw [hcon] at m7
  simp at m7

theorem dropWhile_eq_self_of_head {p : Char → Bool} {l : List Char}
    (h : ∀ a, l.head? = some a → p a = false) : l.dropWhile p = l := by
  cases l with
  | nil => rfl
  | cons c cs =>
    rw [List.dropWhile_cons, h c rfl]
    simp

theorem stripList_idem (p : Char → Bool) (l : List Char) :
    stripList p (stripList p l) = stripList p l := by
  have h1 : (stripList p l).dropWhile p = stripList p l :=
    dropWhile_eq_self_of_head (fun a ha => head?_stripList_not ha)
  have h2 : ((stripList p l).reverse).dropWhile p = (stripList p l).reverse := by
    apply dropWhile_eq_self_of_head
    intro a ha
    rw [List.head?_reverse] at ha
    exact getLast?_stripList_not ha
  show (((stripList p l).dropWhile p).reverse.dropWhile p).reverse = stripList p l
  rw [h1, h2, List.reverse_reverse]

theorem pyStrip_idem (s : String) : pyStrip (pyStrip s) = pyStrip s := by
  show (⟨stripList isPySpace (stripList isPySpace s.data)⟩ : String) =
    ⟨stripList isPySpace s.data⟩
  rw [stripList_idem]

theorem extract_yt_handle_strip (s : String) :
    extract_yt_handle (pyStrip s) = extract_yt_handle s := by
  unfold extract_yt_handle
  rw [pyStrip_idem]

/-! ## Lemmas: re-prompting on invalid input -/

theorem bulk_reprompts {s : String} {d : Answers}
    (hacc : (parseBulkInput s).1 = []) :
    bulk_handles_received d s = (Step.inputBulkHandles, d,
      (bulk_handles_received d s).2.2) ∧
    ((bulk_handles_received d s).2.2 = "⚠️ No handles detected. Send one per line." ∨
     (bulk_handles_received d s).2.2 =
       "⚠️ Couldn't parse any handles. Check the format and try again.") := by
  unfold bulk_handles_received
  dsimp only
  split
  · exact ⟨rfl, Or.inl rfl⟩
  · have hU : ((parseBulkInput s).1).isEmpty = true := by rw [hacc]; rfl
    rw [if_pos hU]
    exact ⟨rfl, Or.inr rfl⟩

/-! ## C9 — invalid free-text input re-prompts without state change -/

/-- C9: an unparseable handle, an empty-slug custom campaign name, or a
bulk block with no accepted handle leaves the step and the answers exactly
as they were, emits the corrective message from the source, and does so for
any number `n` of consecutive invalid attempts; the step functions are
total, so no exception can escape. -/
theorem invalid_input_reprompts :
    ∀ (s : String) (d : Answers) (t n : Nat),
    (extract_yt_handle (pyStrip s) = "" →
      stepFn Step.inputHandle d (Ev.text s) t = (Step.inputHandle, d) ∧
      (fun p : Step × Answers => stepFn p.1 p.2 (Ev.text s) t)^[n]
        (Step.inputHandle, d) = (Step.inputHandle, d) ∧
      (handle_received d s).2.2 =
        "⚠️ Couldn't parse that. Try `@handle` or a YouTube URL.") ∧
    (sanitize (pyStrip s) = "" →
      stepFn Step.enterCustomCampaign d (Ev.text s) t = (Step.enterCustomCampaign, d) ∧
      (fun p : Step × Answers => stepFn p.1 p.2 (Ev.text s) t)^[n]
        (Step.enterCustomCampaign, d) = (Step.enterCustomCampaign, d) ∧
      (custom_campaign_received d s).2.2 = "⚠️ Invalid name. Try again.") ∧
    ((parseBulkInput s).1 = [] →
      stepFn Step.inputBulkHandles d (Ev.text s) t = (Step.inputBulkHandles, d) ∧
      (fun p : Step × Answers => stepFn p.1 p.2 (Ev.text s) t)^[n]
        (Step.inputBulkHandles, d) = (Step.inputBulkHandles, d) ∧
      ((bulk_handles_received d s).2.2 = "⚠️ No handles detected. Send one per line." ∨
       (bulk_handles_received d s).2.2 =
         "⚠️ Couldn't parse any handles. Check the format and try again.")) := by
  intro s d t n
  refine ⟨?_, ?_, ?_⟩
  · intro h
    have hfix : stepFn Step.inputHandle d (Ev.text s) t = (Step.inputHandle, d) := by
      have e : stepFn Step.inputHandle d (Ev.text s) t =
          ((handle_received d s).1, (handle_received d s).2.1) := rfl
      rw [e]
      unfold handle_received
      dsimp only
      rw [if_pos h]
    refine ⟨hfix, Function.iterate_fixed hfix n, ?_⟩
    unfold handle_received
    dsimp only
    rw [if_pos h]
  · intro h
    have hfix : stepFn Step.enterCustomCampaign d (Ev.text s) t =
        (Step.enterCustomCampaign, d) := by
      have e : stepFn Step.enterCustomCampaign d (Ev.text s) t =
          ((custom_campaign_received d s).1, (custom_campaign_received d s).2.1) := rfl
      rw [e]
      unfold custom_campaign_received
      dsimp only
      rw [if_pos h]
    refine ⟨hfix, Function.iterate_fixed hfix n, ?_⟩
    unfold custom_campaign_received
    dsimp only
    rw [if_pos h]
  · intro h
    obtain ⟨hb, hmsg⟩ := bulk_reprompts (d := d) h
    have hfix : stepFn Step.inputBulkHandles d (Ev.text s) t = (Step.inputBulkHandles, d) := by
      have e : stepFn Step.inputBulkHandles d (Ev.text s) t =
          ((bulk_handles_received d s).1, (bulk_handles_received d s).2.1) := rfl
      rw [e, hb]
    exact ⟨hfix, Function.iterate_fixed hfix n, hmsg⟩

/-- Witness for C9 at concrete invalid inputs (`"!!!"`, `"##"`, a bulk
block of two unparseable lines), three attempts each. -/
theorem invalid_input_reprompts_witness :
    stepFn Step.inputHandle {} (Ev.text "!!!") 5 = (Step.inputHandle, {}) ∧
    stepFn Step.enterCustomCampaign {} (Ev.text "##") 5 = (Step.enterCustomCampaign, {}) ∧
    stepFn Step.inputBulkHandles {} (Ev.text "??\n!!") 5 = (Step.inputBulkHandles, {}) :=
  ⟨((invalid_input_reprompts "!!!" {} 5 3).1 (by decide)).1,
   ((invalid_input_reprompts "##" {} 5 3).2.1 (by decide)).1,
   ((invalid_input_reprompts "??\n!!" {} 5 3).2.2 (by decide)).1⟩

/-! ## Lemmas: one-line inputs in bulk mode -/

theorem splitlinesAux_no_break :
    ∀ (l acc : List Char), (∀ c ∈ l, isLineBreak c = false) →
      splitlinesAux false acc l =
        if acc.isEmpty && l.isEmpty then [] else [⟨acc.reverse ++ l⟩] := by
  intro l
  induction l with
  | nil =>
    intro acc _
    rw [splitlinesAux]
    cases acc with
    | nil => rfl
    | cons a as => simp
  | cons c rest ih =>
    intro acc h
    have hc := h c (List.mem_cons_self c _)
    have hc2 := hc
    have hcr : ¬(c = '\r') := by
      simp only [isLineBreak, Bool.or_eq_false_iff, decide_eq_false_iff_not] at hc
      exact hc.1.1.1.1.1.1.1.1.2
    rw [splitlinesAux]
    rw [Bool.and_false, if_neg (by simp)]
    rw [if_neg hcr]
    rw [if_neg (by simp [hc2])]
    rw [ih (c :: acc) (fun x hx => h x (List.mem_cons_of_mem _ hx))]
    simp

theorem pyStrip_ne_empty_iff {s : String} : pyStrip s ≠ "" ↔ (pyStrip s).data ≠ [] := by
  constructor
  · intro h hcon
    exact h (congrArg String.mk hcon)
  · intro h hcon
    exact h (congrArg String.data hcon)

/-! ## C10 — inputs matching no URL pattern are accepted as handles -/

/-- C10: when none of the four YouTube URL patterns matches the stripped
input and the input holds at least one ASCII letter or digit after an
optional leading `@` (for example the non-channel URL
`https://youtube.com/watch?v=abc`), `extract_yt_handle` returns a
non-empty handle (the sanitized whole input or `@`-remainder), the single
handle step accepts it and advances to campaign selection, and — for a
one-line input — the bulk step accepts it as well. -/
theorem unmatched_input_accepted :
    ∀ (s : String) (d : Answers) (t : Nat),
    searchCapture "youtube.com/@".data isHandleChar (pyStrip s).data = none →
    searchCapture "youtube.com/c/".data isHandleChar (pyStrip s).data = none →
    searchCapture "youtube.com/channel/".data isChannelChar (pyStrip s).data = none →
    searchCapture "youtube.com/user/".data isHandleChar (pyStrip s).data = none →
    (∃ c ∈ afterAt (pyStrip s).data, isAsciiAlphaNum c = true) →
    extract_yt_handle s ≠ "" ∧
    stepFn Step.inputHandle d (Ev.text s) t =
      (Step.selectCampaign, {d with handle := some (extract_yt_handle (pyStrip s))}) ∧
    ((∀ c ∈ (pyStrip s).data, isLineBreak c = false) →
      (parseBulkInput s).1 = [extract_yt_handle (pyStrip s)] ∧
      stepFn Step.inputBulkHandles d (Ev.text s) t =
        (Step.selectCampaign,
          {d with bulk_handles := [extract_yt_handle (pyStrip s)], handle := some ""})) := by
  intro s d t h1 h2 h3 h4 h5
  have hs : extract_yt_handle s =
      (if (pyStrip s).data.head? = some '@' then sanitize ⟨(pyStrip s).data.tail⟩
       else sanitize (pyStrip s)) := by
    unfold extract_yt_handle
    rw [h1, h2, h3, h4]
  have hne : extract_yt_handle s ≠ "" := by
    rw [hs]
    by_cases hat : (pyStrip s).data.head? = some '@'
    · rw [if_pos hat]
      have h5' : ∃ c ∈ (pyStrip s).data.tail, isAsciiAlphaNum c = true := by
        unfold afterAt at h5
        rw [if_pos hat] at h5
        exact h5
      obtain ⟨c, hc, ha⟩ := h5'
      exact sanitize_ne_empty hc ha
    · rw [if_neg hat]
      unfold afterAt at h5
      rw [if_neg hat] at h5
      obtain ⟨c, hc, ha⟩ := h5
      exact sanitize_ne_empty hc ha
  have hnes : extract_yt_handle (pyStrip s) ≠ "" := by
    rw [extract_yt_handle_strip]
    exact hne
  refine ⟨hne, ?_, ?_⟩
  · have e : stepFn Step.inputHandle d (Ev.text s) t =
        ((handle_received d s).1, (handle_received d s).2.1) := rfl
    rw [e]
    unfold handle_received
    dsimp only
    rw [if_neg hnes]
  · intro hnb
    have hrne : (pyStrip s).data ≠ [] := by
      obtain ⟨c, hc, _⟩ := h5
      unfold afterAt at hc
      by_cases hat : (pyStrip s).data.head? = some '@'
      · rw [if_pos hat] at hc
        exact List.ne_nil_of_mem (List.mem_of_mem_tail hc)
      · rw [if_neg hat] at hc
        exact List.ne_nil_of_mem hc
    have hsplit : splitlines (pyStrip s) = [pyStrip s] := by
      unfold splitlines
      rw [splitlinesAux_no_break _ _ hnb]
      rw [if_neg (by simp [List.isEmpty_iff, hrne])]
      simp
    have hlines : bulkLines (pyStrip s) = [pyStrip s] := by
      unfold bulkLines
      rw [hsplit]
      simp only [List.map_cons, List.map_nil, pyStrip_idem]
      rw [List.filter_cons]
      rw [if_pos (by simp [pyStrip_ne_empty_iff.2 hrne])]
      rfl
    have hacc : (parseBulkInput s).1 = [extract_yt_handle (pyStrip s)] := by
      show dedupKeepFirst [] ((bulkLines (pyStrip s)).filterMap
        (fun l => if extract_yt_handle l = "" then none
          else some (extract_yt_handle l))) = _
      rw [hlines]
      simp only [List.filterMap_cons, List.filterMap_nil]
      rw [if_neg hnes]
      rw [dedupKeepFirst]
      rw [if_neg (by simp)]
      rfl
    refine ⟨hacc, ?_⟩
    have e : stepFn Step.inputBulkHandles d (Ev.text s) t =
        ((bulk_handles_received d s).1, (bulk_handles_received d s).2.1) := rfl
    rw [e]
    unfold bulk_handles_received
    dsimp only
    rw [if_neg (by rw [hlines]; simp)]
    rw [if_neg (by rw [hacc]; simp)]
    rw [hacc]

/-- Witness for C10: the malformed YouTube URL from the claim is accepted
(nonempty extraction, single accepted bulk handle). -/
theorem unmatched_input_accepted_witness :
    extract_yt_handle "https://youtube.com/watch?v=abc" ≠ "" ∧
    (parseBulkInput "https://youtube.com/watch?v=abc").1 =
      [extract_yt_handle (pyStrip "https://youtube.com/watch?v=abc")] :=
  ⟨(unmatched_input_accepted "https://youtube.com/watch?v=abc" {} 0 (by decide)
      (by decide) (by decide) (by decide) (by decide)).1,
   ((unmatched_input_accepted "https://youtube.com/watch?v=abc" {} 0 (by decide)
      (by decide) (by decide) (by decide) (by decide)).2.2 (by decide)).1⟩

/-! ## Lemmas: the forward-flow visibility invariant is preserved -/

theorem invC3_congr {st st' : Step} {d d' : Answers}
    (h : invC3 (st, d))
    (hv : d'.earn_visibility = d.earn_visibility)
    (hc : d'.channel_type = d.channel_type)
    (hp : pastVisibility st' = pastVisibility st)
    (hne : st' ≠ Step.selectEarnVisibility) : invC3 (st', d') := by
  obtain ⟨hiff, _⟩ := h
  constructor
  · show d'.earn_visibility ≠ none ↔ d'.channel_type = some "earn" ∧ pastVisibility st' = true
    rw [hv, hc, hp]
    exact hiff
  · intro hcon
    exact absurd hcon hne

theorem vis_none_of_invC3 {st : Step} {d : Answers}
    (h : invC3 (st, d)) (hp : pastVisibility st = false) :
    d.earn_visibility = none := by
  by_contra hv
  have h2 := (h.1.1 hv).2
  rw [hp] at h2
  cases h2

theorem invC3_no_vis {st' : Step} {d' : Answers}
    (hv : d'.earn_visibility = none)
    (h : d'.channel_type = some "earn" → pastVisibility st' = true → False)
    (h2 : st' = Step.selectEarnVisibility → d'.channel_type = some "earn") :
    invC3 (st', d') :=
  ⟨⟨fun hvv => absurd hv hvv, fun hrh => (h hrh.1 hrh.2).elim⟩, h2⟩

theorem invC3_cleared {st : Step} (h : st ≠ Step.selectEarnVisibility) :
    invC3 (st, {}) := by
  refine ⟨⟨fun hv => absurd rfl hv, fun hrh => ?_⟩, fun hcon => absurd hcon h⟩
  exact nomatch hrh.1

theorem navStep_invC3 {tok : String} {st : Step} {d : Answers}
    (hnb : backTokens.contains tok = false)
    (hinv : invC3 (st, d)) : invC3 ((navStep tok d).getD (st, d)) := by
  unfold navStep
  split_ifs with h1 h2 h3 h4 h5 h6 h7 h8 h9
  · exact invC3_cleared (by decide)
  · rw [h2] at hnb; exact absurd hnb (by decide)
  · rw [h3] at hnb; exact absurd hnb (by decide)
  · rw [h4] at hnb; exact absurd hnb (by decide)
  · rw [h5] at hnb; exact absurd hnb (by decide)
  · rw [h6] at hnb; exact absurd hnb (by decide)
  · rw [h7] at hnb; exact absurd hnb (by decide)
  · rw [h8] at hnb; exact absurd hnb (by decide)
  · rw [h9] at hnb; exact absurd hnb (by decide)
  · exact hinv

theorem stepFn_invC3 (st : Step) (d : Answers) (e : Ev) (t : Nat)
    (hinv : invC3 (st, d)) (hnb : isBackEv e = false) :
    invC3 (stepFn st d e t) := by
  cases e with
  | startCmd => exact invC3_cleared (by decide)
  | cancelCmd =>
    show invC3 (if st = Step.ended then (st, d) else (Step.ended, {}))
    split
    · exact hinv
    · exact invC3_cleared (by decide)
  | text s =>
    cases st with
    | inputPageUrl =>
      show invC3 ((page_url_text d s).1, (page_url_text d s).2.1)
      unfold page_url_text
      dsimp only
      exact invC3_congr hinv rfl rfl rfl (by decide)
    | inputHandle =>
      show invC3 ((handle_received d s).1, (handle_received d s).2.1)
      unfold handle_received
      dsimp only
      split
      · exact hinv
      · dsimp only
        exact invC3_congr hinv rfl rfl rfl (by decide)
    | inputBulkHandles =>
      show invC3 ((bulk_handles_received d s).1, (bulk_handles_received d s).2.1)
      unfold bulk_handles_received
      dsimp only
      split
      · exact hinv
      · split
        · exact hinv
        · dsimp only
          exact invC3_congr hinv rfl rfl rfl (by decide)
    | enterCustomCampaign =>
      show invC3 ((custom_campaign_received d s).1, (custom_campaign_received d s).2.1)
      unfold custom_campaign_received
      dsimp only
      split
      · exact hinv
      · dsimp only
        exact invC3_congr hinv rfl rfl rfl (by decide)
    | selectChannelType => exact hinv
    | selectEarnVisibility => exact hinv
    | selectHandleMode => exact hinv
    | selectCampaign => exact hinv
    | selectContentType => exact hinv
    | confirm => exact hinv
    | ended => exact hinv
  | cb tok =>
    have hnb' : backTokens.contains tok = false := by
      simpa [isBackEv] using hnb
    cases st with
    | selectChannelType =>
      show invC3 (if strStartsWith tok "chtype_" = true then channel_type_selected d tok
        else (navStep tok d).getD (Step.selectChannelType, d))
      have hvnone : d.earn_visibility = none := vis_none_of_invC3 hinv rfl
      split
      · unfold channel_type_selected
        dsimp only
        split
        · rename_i hearn
          refine invC3_no_vis hvnone (fun _ hfalse => ?_) (fun _ => ?_)
          · exact absurd hfalse (by decide)
          · show some (removeAll "chtype_" tok) = some "earn"
            rw [hearn]
        · split
          · rename_i hnotearn hmain
            refine invC3_no_vis hvnone (fun hct _ => ?_) (fun hcon => absurd hcon (by decide))
            have he : removeAll "chtype_" tok = "earn" := Option.some.inj hct
            rw [hmain] at he
            exact absurd he (by decide)
          · rename_i hnotearn hnotmain
            refine invC3_no_vis hvnone (fun hct _ => ?_) (fun hcon => absurd hcon (by decide))
            exact hnotearn (Option.some.inj hct)
      · exact navStep_invC3 hnb' hinv
    | selectEarnVisibility =>
      show invC3 (if strStartsWith tok "visibility_" = true then earn_visibility_selected d tok
        else (navStep tok d).getD (Step.selectEarnVisibility, d))
      split
      · unfold earn_visibility_selected
        refine ⟨⟨fun _ => ⟨hinv.2 rfl, rfl⟩, fun _ => by simp⟩,
          fun hcon => nomatch hcon⟩
      · exact navStep_invC3 hnb' hinv
    | selectHandleMode =>
      show invC3 (if strStartsWith tok "hmode_" = true then handle_mode_selected d tok
        else (navStep tok d).getD (Step.selectHandleMode, d))
      split
      · unfold handle_mode_selected
        dsimp only
        split
        · exact invC3_congr hinv rfl rfl rfl (by decide)
        · exact invC3_congr hinv rfl rfl rfl (by decide)
      · exact navStep_invC3 hnb' hinv
    | selectCampaign =>
      show invC3 (if strStartsWith tok "campaign_" = true then campaign_selected d tok
        else (navStep tok d).getD (Step.selectCampaign, d))
      split
      · unfold campaign_selected
        dsimp only
        split
        · exact invC3_congr hinv rfl rfl rfl (by decide)
        · split
          · exact invC3_congr hinv rfl rfl rfl (by decide)
          · exact hinv
      · exact navStep_invC3 hnb' hinv
    | selectContentType =>
      show invC3 (if strStartsWith tok "content_" = true then content_selected d tok t
        else (navStep tok d).getD (Step.selectContentType, d))
      split
      · unfold content_selected
        dsimp only
        split
        · exact hinv
        · split
          · exact invC3_congr hinv rfl rfl rfl (by decide)
          · exact invC3_congr hinv rfl rfl rfl (by decide)
      · exact navStep_invC3 hnb' hinv
    | confirm =>
      show invC3 (if tok = "copy_link" then (Step.confirm, d)
        else if tok = "copy_bulk" then (Step.confirm, d)
        else if tok = "restart" then (Step.inputPageUrl, {})
        else (navStep tok d).getD (Step.confirm, d))
      split_ifs
      · exact hinv
      · exact hinv
      · exact invC3_cleared (by decide)
      · exact navStep_invC3 hnb' hinv
    | ended => exact hinv
    | inputPageUrl => exact navStep_invC3 hnb' hinv
    | inputHandle => exact navStep_invC3 hnb' hinv
    | inputBulkHandles => exact navStep_invC3 hnb' hinv
    | enterCustomCampaign => exact navStep_invC3 hnb' hinv

theorem runTrace_invC3 :
    ∀ (evs : List (Ev × Nat)) (p : Step × Answers), invC3 p →
      (∀ q ∈ evs, isBackEv q.1 = false) →
      invC3 (evs.foldl (fun p e => stepFn p.1 p.2 e.1 e.2) p) := by
  intro evs
  induction evs with
  | nil => intro p h _; exact h
  | cons q rest ih =>
    intro p hp hq
    rw [List.foldl_cons]
    exact ih _ (stepFn_invC3 p.1 p.2 q.1 q.2 hp (hq q (List.mem_cons_self _ _)))
      (fun r hr => hq r (List.mem_cons_of_mem _ hr))

/-! ## C3 (amended) — the invariant holds for forward-only navigation -/

/-- C3 amended: in every session state reachable without backward
navigation (no `back_to_*` button events; restart, cancel and re-entry
allowed), `earn_visibility` is defined iff the channel type is `earn` and
the flow is past the Visibility step.  With backward navigation a stale
`earn_visibility` can persist after the channel type is changed away from
`earn` (see the counterexample), because `channel_type_selected` never
clears it. -/
theorem earn_visibility_forward_invariant :
    ∀ evs : List (Ev × Nat), (∀ q ∈ evs, isBackEv q.1 = false) →
      ((runTrace evs).2.earn_visibility ≠ none ↔
        ((runTrace evs).2.channel_type = some "earn" ∧
          pastVisibility (runTrace evs).1 = true)) := by
  intro evs h
  exact (runTrace_invC3 evs (Step.inputPageUrl, {}) (invC3_cleared (by decide)) h).1

/-- Witness for C3 (amended): a concrete forward-only earn flow, after
which `earn_visibility` is set and the invariant instance holds. -/
theorem earn_visibility_forward_invariant_witness :
    (runTrace [(Ev.text "x", 0), (Ev.cb "chtype_earn", 0),
        (Ev.cb "visibility_pu", 0)]).2.earn_visibility ≠ none ↔
      ((runTrace [(Ev.text "x", 0), (Ev.cb "chtype_earn", 0),
          (Ev.cb "visibility_pu", 0)]).2.channel_type = some "earn" ∧
        pastVisibility (runTrace [(Ev.text "x", 0), (Ev.cb "chtype_earn", 0),
          (Ev.cb "visibility_pu", 0)]).1 = true) :=
  earn_visibility_forward_invariant
    [(Ev.text "x", 0), (Ev.cb "chtype_earn", 0), (Ev.cb "visibility_pu", 0)] (by decide)

end UtmBot
